import Mathlib

/-
Verification development for the rom Redis object mapper (rom 0.20,
src/rom/__init__.py and src/rom/columns.py).

The embedding models the write path (Model._apply_changes, both the
optimistic pipeline branch and the Lua script branch), the metaclass
unique-column validation, the primary-key column descriptor, the unique
lookup of Model.get_by, and the Query builder.

Modelling conventions:
  * Attribute values are already-encoded store strings.  Unique columns in
    the source can only be String columns (columns.py raises ColumnError
    for any other unique column), and String._to_redis is the identity, so
    encode and decode are the identity on the values handled here.
  * Python None is Option.none; a missing dict entry is Option.none.
  * Python truthiness of a string value: none and the empty string are
    falsy.
  * Machine-level redis state is a function store: hash key -> field ->
    optional value.  The buffered transactional pipeline of the optimistic
    branch is a list of write operations that is applied to the store only
    when pipe.execute() runs; an exception raised before that point
    discards the buffer, which the model renders by returning an error
    without a buffer.
  * Numeric index scores are modelled as integers.
-/

namespace RomModel

/-- Values a per-column key generator can return, covering the Python
dynamic types dispatched on in Model._apply_changes lines 324-337:
list/tuple/set of tokens, dict of scores, or anything else. -/
inductive PyVal where
  | vlist (l : List String)
  | vdict (l : List (String × Int))
  | vnone
  | vbool (b : Bool)
  | vint (n : Int)
  | vstr (s : String)
deriving DecidableEq

/-- Python truthiness for PyVal (`elif not generated` in the source). -/
def PyVal.truthy : PyVal → Bool
  | .vlist l => !l.isEmpty
  | .vdict l => !l.isEmpty
  | .vnone => false
  | .vbool b => b
  | .vint n => decide (n ≠ 0)
  | .vstr s => decide (s ≠ "")

/-- Is the generated value a token collection (Python list/tuple/set)? -/
def PyVal.isTokenColl : PyVal → Bool
  | .vlist _ => true
  | _ => false

/-- Is the generated value a score map (Python dict)? -/
def PyVal.isScoreMap : PyVal → Bool
  | .vdict _ => true
  | _ => false

/-- The exception kinds of rom that the modelled code can raise:
ColumnError, UniqueKeyViolation (carrying the offending attribute and
value), InvalidOperation, InvalidColumnValue, QueryError, and a Lua
runtime failure for a script call that errors server side. -/
inductive RomErr where
  | columnError
  | uniqueViolation (attr value : String)
  | invalidOperation
  | invalidColumnValue
  | queryError
  | luaRuntimeError
deriving DecidableEq

/-- A buffered pipeline write operation of the optimistic branch. -/
inductive WOp where
  | hdel (key field : String)
  | hset (key : String) (field : Option String) (value : String)
  | hmset (key : String) (data : List (String × String))
  | gindexWrite (id : String) (keys : List String) (scores : List (String × Int))
  | unindex (id : String)
  | delKey (key : String)
deriving DecidableEq

instance instDecEqExcept {ε α : Type} [DecidableEq ε] [DecidableEq α] :
    DecidableEq (Except ε α) := fun x y =>
  match x, y with
  | .error a, .error b =>
    if h : a = b then isTrue (by rw [h]) else isFalse (fun hc => h (Except.error.inj hc))
  | .error _, .ok _ => isFalse (fun hc => Except.noConfusion hc)
  | .ok _, .error _ => isFalse (fun hc => Except.noConfusion hc)
  | .ok a, .ok b =>
    if h : a = b then isTrue (by rw [h]) else isFalse (fun hc => h (Except.ok.inj hc))

/-- Schema data of one column as _apply_changes consumes it: whether the
column is unique and its optional key generator. -/
structure Col where
  unique : Bool
  keygen : Option (String → PyVal)

/-- The unique-index hash key '%s:%s:uidx' % (model, col). -/
def uidxKey (model attr : String) : String :=
  model ++ ":" ++ attr ++ ":uidx"

/-- The entity record hash key '%s:%s' % (model, pk). -/
def recordKey (model pk : String) : String :=
  model ++ ":" ++ pk

/-- The index key '%s:%s:idx' % (namespace, key) used by the Lua script. -/
def idxKey (ns k : String) : String :=
  ns ++ ":" ++ k ++ ":idx"

/-- The attributes of the schema that carry unique=True (cls._unique). -/
def uniqueAttrs (schema : List (String × Col)) : List String :=
  (schema.filter (fun p => p.2.unique)).map (fun p => p.1)

/-- redis-py turns a Python None hash field into the string 'None'. -/
def pyField : Option String → String
  | none => "None"
  | some s => s

/-- Dispatch on the key generator's return value, Model._apply_changes
lines 324-337: a list/tuple/set contributes 'attr:k' membership keys, a
dict contributes scores ('attr' itself for the empty sub-key, 'attr:k'
otherwise), a falsy value contributes nothing, and anything else raises
ColumnError right there. -/
def applyKeygen (attr : String) (g : PyVal) : Except RomErr (List String × List (String × Int)) :=
  match g with
  | .vlist l => .ok (l.map (fun k => attr ++ ":" ++ k), [])
  | .vdict d =>
      .ok ([], d.map (fun p => (if p.1 = "" then attr else attr ++ ":" ++ p.1, p.2)))
  | g => if g.truthy then .error .columnError else .ok ([], [])

/-- Python truthiness of an optional string value. -/
def truthyO : Option String → Bool
  | none => false
  | some s => decide (s ≠ "")

/-- The guard of the optimistic unique check, line 296 of __init__.py:
'nuval and (ouval != nuvale or full)'.  ouval is the raw old value and
nuval the new value (encoding is the identity on String columns). -/
def checkCond (ouval nuval : Option String) (full : Bool) : Bool :=
  truthyO nuval && (decide (ouval ≠ nuval) || full)

/-- Per-attribute outcome of one iteration of the column loop of
Model._apply_changes (lines 310-371). -/
structure AttrOut where
  keygenCalled : Bool
  keys : List String
  scores : List (String × Int)
  changed : Nat
  ops : List WOp
  dataEntry : Option (String × String)
  deletedAttr : Bool
  udeleted : Option String
  uniqueArg : Option (Option String)
deriving DecidableEq

/-- The key-generator step of the column loop, line 323-337: the
generator runs whenever the column has one, the call is not a delete, and
the new value is not None; its return value is dispatched by
applyKeygen.  Returns whether the generator was invoked together with the
produced index keys and scores. -/
def keygenStep (attr : String) (c : Col) (nval : Option String) (del : Bool) :
    Except RomErr (Bool × List String × List (String × Int)) :=
  match c.keygen, nval with
  | some g, some v =>
    if del then .ok (false, [], [])
    else
      match applyKeygen attr (g v) with
      | .error e => .error e
      | .ok (ks, ss) => .ok (true, ks, ss)
  | _, _ => .ok (false, [], [])

/-- The remainder of one column-loop iteration after the key-generator
step, lines 339-371: the equality short-circuit 'nval == oval and not
full' skips the rest of the iteration; a removed value deletes the record
field and the old unique claim; otherwise the value lands in data and a
unique column updates (optimistic) or registers (Lua) its unique-index
entry. -/
def processAttrCore (model pk attr : String) (c : Col) (roval nval : Option String)
    (full useLua : Bool) (kc : Bool) (ks : List String)
    (ss : List (String × Int)) : AttrOut :=
  if nval = roval ∧ full = false then
    ⟨kc, ks, ss, 0, [], none, false, none, none⟩
  else
    match nval, roval with
    | none, some r =>
      if useLua then
        ⟨kc, ks, ss, 1, [], none, true, if c.unique then some r else none, none⟩
      else
        ⟨kc, ks, ss, 1,
         WOp.hdel (recordKey model pk) attr ::
           (if c.unique then [WOp.hdel (uidxKey model attr) r] else []),
         none, false, none, none⟩
    | nv, ov =>
      let de : Option (String × String) := nv.map (fun v => (attr, v))
      if c.unique then
        if useLua then
          ⟨kc, ks, ss, 1, [], de, false,
           (match ov with
            | some r => if decide (ov ≠ nv) then some r else none
            | none => none),
           some nv⟩
        else
          ⟨kc, ks, ss, 1,
           (match ov with
            | some r => [WOp.hdel (uidxKey model attr) r]
            | none => []) ++ [WOp.hset (uidxKey model attr) nv pk],
           de, false, none, none⟩
      else
        ⟨kc, ks, ss, 1, [], de, false, none, none⟩

/-- One iteration of the column loop of Model._apply_changes for attribute
attr, lines 310-371.  roval is old.get(attr), nval is new.get(attr);
String columns encode and decode by identity, so oval = roval and
rnval = nval.  The key generator runs first; a bad generator return
raises there; the rest of the iteration is processAttrCore. -/
def processAttr (model pk attr : String) (c : Col) (roval nval : Option String)
    (full del useLua : Bool) : Except RomErr AttrOut :=
  match keygenStep attr c nval del with
  | .error e => .error e
  | .ok (kc, ks, ss) =>
    .ok (processAttrCore model pk attr c roval nval full useLua kc ks ss)

/-- Accumulated state of the column loop: change count, index keys and
scores, buffered pipeline ops, data dict, and the Lua-branch lists
deleted, udeleted and unique. -/
structure ColOut where
  changes : Nat
  keys : List String
  scores : List (String × Int)
  ops : List WOp
  data : List (String × String)
  deleted : List String
  udeleted : List (String × String)
  unique : List (String × Option String)
deriving DecidableEq

def ColOut.empty : ColOut := ⟨0, [], [], [], [], [], [], []⟩

def ColOut.absorb (acc : ColOut) (attr : String) (r : AttrOut) : ColOut :=
  ⟨acc.changes + r.changed,
   acc.keys ++ r.keys,
   acc.scores ++ r.scores,
   acc.ops ++ r.ops,
   acc.data ++ (match r.dataEntry with | some p => [p] | none => []),
   acc.deleted ++ (if r.deletedAttr then [attr] else []),
   acc.udeleted ++ (match r.udeleted with | some v => [(attr, v)] | none => []),
   acc.unique ++ (match r.uniqueArg with | some v => [(attr, v)] | none => [])⟩

/-- The full column loop of Model._apply_changes over the schema. -/
def columnLoopAux (model pk : String) (old new : String → Option String)
    (full del useLua : Bool) (acc : ColOut) :
    List (String × Col) → Except RomErr ColOut
  | [] => .ok acc
  | (a, c) :: rest =>
    match processAttr model pk a c (old a) (new a) full del useLua with
    | .error e => .error e
    | .ok r => columnLoopAux model pk old new full del useLua (acc.absorb a r) rest

def columnLoop (model pk : String) (old new : String → Option String)
    (full del useLua : Bool) (schema : List (String × Col)) : Except RomErr ColOut :=
  columnLoopAux model pk old new full del useLua ColOut.empty schema

/-- The redis state seen by the optimistic branch: the hash keyspace
(entity records and the unique-index hashes) plus the general index
footprint per entity id maintained by GeneralIndex.index/_unindex. -/
structure Store where
  hashes : String → String → Option String
  gidx : String → Option (List String × List (String × Int))

/-- Point update of a hash keyspace. -/
def setHash (h : String → String → Option String) (k f : String)
    (v : Option String) : String → String → Option String :=
  fun k1 f1 => if k1 = k ∧ f1 = f then v else h k1 f1

/-- Applying one buffered pipeline operation to the store. -/
def commitOp (st : Store) : WOp → Store
  | .hdel k f => { st with hashes := setHash st.hashes k f none }
  | .hset k f v => { st with hashes := setHash st.hashes k (pyField f) (some v) }
  | .hmset k d =>
      { st with hashes := d.foldl (fun h p => setHash h k p.1 (some p.2)) st.hashes }
  | .gindexWrite id ks ss =>
      { st with gidx := fun i => if i = id then some (ks, ss) else st.gidx i }
  | .unindex id => { st with gidx := fun i => if i = id then none else st.gidx i }
  | .delKey k => { st with hashes := fun k1 f1 => if k1 = k then none else st.hashes k1 f1 }

/-- pipe.execute(): apply the whole buffer in order. -/
def commit (st : Store) (ops : List WOp) : Store :=
  ops.foldl commitOp st

/-- The optimistic unique-check loop of Model._apply_changes lines
290-307: for each unique column whose guard fires, watch the unique-index
hash and read the current holder of the encoded new value; a holder that
is neither empty nor this entity's pk aborts with the offending attribute
and value (UniqueKeyViolation).  Returns the watched keys and the first
violation, if any. -/
def uniqueCheckLoop (model pk : String) (store : Store)
    (old new : String → Option String) (full : Bool) :
    List String → List String × Option (String × String)
  | [] => ([], none)
  | a :: rest =>
    if checkCond (old a) (new a) full then
      match new a with
      | some v =>
        let ik := uidxKey model a
        match store.hashes ik v with
        | some i =>
          if i = pk then
            let r := uniqueCheckLoop model pk store old new full rest
            (ik :: r.1, r.2)
          else ([ik], some (a, v))
        | none =>
          let r := uniqueCheckLoop model pk store old new full rest
          (ik :: r.1, r.2)
      | none => uniqueCheckLoop model pk store old new full rest
    else uniqueCheckLoop model pk store old new full rest

/-- One attempt of the optimistic (use_lua = False) branch of
Model._apply_changes: the >1-unique-column ColumnError (lines 286-288),
the unique-check loop (lines 290-307), then the column loop buffering
writes, followed by the buffered hmset of the data dict and the
GeneralIndex write (or, when deleting, the unindex and record deletion).
Returns the watched keys, the buffered operations handed to
pipe.execute(), and the change count. -/
def applyOptimisticOnce (model pk : String) (schema : List (String × Col))
    (store : Store) (old new : String → Option String) (full del : Bool) :
    Except RomErr (List String × List WOp × Nat) :=
  if 1 < (uniqueAttrs schema).length then .error .columnError
  else
    match uniqueCheckLoop model pk store old new full (uniqueAttrs schema) with
    | (_, some av) => .error (.uniqueViolation av.1 av.2)
    | (ws, none) =>
      match columnLoop model pk old new full del false schema with
      | .error e => .error e
      | .ok co =>
        if del then
          .ok (ws, co.ops ++ [WOp.unindex pk, WOp.delKey (recordKey model pk)],
               co.changes + 1)
        else
          .ok (ws, co.ops
               ++ (if co.data.isEmpty then [] else [WOp.hmset (recordKey model pk) co.data])
               ++ [WOp.gindexWrite pk co.keys co.scores],
               co.changes)

/-- Store-level result of one optimistic attempt: an exception raised
before pipe.execute() discards the buffer, so the store is untouched;
otherwise the buffered writes are committed. -/
def applyOptimisticStore (model pk : String) (schema : List (String × Col))
    (store : Store) (old new : String → Option String) (full del : Bool) :
    Store × Option RomErr :=
  match applyOptimisticOnce model pk schema store old new full del with
  | .error e => (store, some e)
  | .ok (_, ops, _) => (commit store ops, none)

/-- The 'while 1' retry loop of Model._apply_changes under an adversary
schedule: s i = true means a concurrent writer invalidated a watched key
during attempt i, making pipe.execute() raise WatchError, upon which the
code does 'continue'.  A WatchError is only possible when at least one
key was watched during the attempt.  fuel bounds how many attempts we
unfold; none means the loop is still running after that many attempts. -/
def applyLoop (model pk : String) (schema : List (String × Col)) (store : Store)
    (old new : String → Option String) (full del : Bool) (s : Nat → Bool) :
    Nat → Option (Store × Option RomErr)
  | 0 => none
  | fuel + 1 =>
    match applyOptimisticOnce model pk schema store old new full del with
    | .error e => some (store, some e)
    | .ok (ws, ops, _) =>
      if ws ≠ [] ∧ s 0 = true then
        applyLoop model pk schema store old new full del (fun i => s (i + 1)) fuel
      else some (commit store ops, none)

/-- The redis state seen by the Lua script: hashes (records, unique-index
hashes), plain sets and sorted sets for the ':idx' keys, and the
per-entity manifest hash 'namespace::' (its cjson payload modelled
structurally as the pair of membership keys and scored keys). -/
structure LStore where
  hashes : String → String → Option String
  sets : String → List String
  zsets : String → List (String × Int)
  manifests : String → String → Option (List String × List String)

def hsetF (h : String → String → Option String) (k f v : String) :
    String → String → Option String :=
  fun k1 f1 => if k1 = k ∧ f1 = f then some v else h k1 f1

def hdelF (h : String → String → Option String) (k f : String) :
    String → String → Option String :=
  fun k1 f1 => if k1 = k ∧ f1 = f then none else h k1 f1

/-- The script's unique-constraint read pass predicate: HGET on the
unique-index hash returns a holder that is neither missing nor this id. -/
def conflictAt (st : LStore) (ns id : String) (p : String × String) : Bool :=
  match st.hashes (uidxKey ns p.1) p.2 with
  | none => false
  | some known => decide (known ≠ id)

/-- The check pass of _redis_writer_lua (the write=false round of the
first loop): return the first column whose value is claimed by another
id, before any write of the script has run. -/
def findConflict (st : LStore) (ns id : String) :
    List (String × String) → Option String
  | [] => none
  | p :: rest =>
    if conflictAt st ns id p then some p.1 else findConflict st ns id rest

/-- The write portion of _redis_writer_lua, executed only after the check
pass found no conflict: HSET every unique claim, HDEL retracted unique
claims still held by this id, HDEL deleted columns, HMSET the data,
retract the old index footprint recorded in the manifest, SADD the new
membership keys, ZADD the new scored keys, and replace the manifest. -/
def luaWrites (st : LStore) (ns id : String) (uniqueL : List (String × String))
    (udeletedL : List (String × String)) (deletedL : List String)
    (dataL : List (String × String)) (keysL : List String)
    (scoredL : List (String × Int)) : LStore × Nat :=
  let h1 := uniqueL.foldl (fun h p => hsetF h (uidxKey ns p.1) p.2 id) st.hashes
  let h2 := udeletedL.foldl
    (fun h p =>
      if h (uidxKey ns p.1) p.2 = some id then hdelF h (uidxKey ns p.1) p.2 else h) h1
  let h3 := deletedL.foldl (fun h a => hdelF h (recordKey ns id) a) h2
  let h4 := dataL.foldl (fun h p => hsetF h (recordKey ns id) p.1 p.2) h3
  let mkey := ns ++ "::"
  let old := st.manifests mkey id
  let sets1 := match old with
    | none => st.sets
    | some om => om.1.foldl
        (fun s k => fun sk => if sk = idxKey ns k then (s sk).filter (fun i => i ≠ id) else s sk)
        st.sets
  let zsets1 := match old with
    | none => st.zsets
    | some om => om.2.foldl
        (fun z k => fun zk => if zk = idxKey ns k then (z zk).filter (fun p => p.1 ≠ id) else z zk)
        st.zsets
  let sets2 := keysL.foldl
    (fun s k => fun sk =>
      if sk = idxKey ns k then id :: (s sk).filter (fun i => i ≠ id) else s sk)
    sets1
  let zsets2 := scoredL.foldl
    (fun z p => fun zk =>
      if zk = idxKey ns p.1 then (id, p.2) :: (z zk).filter (fun q => q.1 ≠ id) else z zk)
    zsets1
  ({ hashes := h4, sets := sets2, zsets := zsets2,
     manifests := fun mk i =>
       if mk = mkey ∧ i = id then some (keysL, scoredL.map (fun p => p.1)) else st.manifests mk i },
   keysL.length + scoredL.length)

/-- _redis_writer_lua: a unique value of None would reach the script as
cjson null and make HGET fail server side during the check pass (error
before any write); otherwise a conflicting column aborts the script with
that column name before any write; otherwise all writes run. -/
def luaWriter (st : LStore) (ns id : String) (uniqueL : List (String × Option String))
    (udeletedL : List (String × String)) (deletedL : List String)
    (dataL : List (String × String)) (keysL : List String)
    (scoredL : List (String × Int)) : Except (Option String) (LStore × Nat) :=
  if uniqueL.any (fun p => p.2.isNone) then .error none
  else
    let uL := uniqueL.map (fun p => (p.1, p.2.getD ""))
    match findConflict st ns id uL with
    | some col => .error (some col)
    | none => .ok (luaWrites st ns id uL udeletedL deletedL dataL keysL scoredL)

/-- redis_writer_lua, lines 608-616: run the script; a returned column
name becomes a UniqueKeyViolation naming unique[result] and the column. -/
def redisWriterLua (st : LStore) (ns id : String)
    (uniqueL : List (String × Option String)) (udeletedL : List (String × String))
    (deletedL : List String) (dataL : List (String × String)) (keysL : List String)
    (scoredL : List (String × Int)) : Except RomErr (LStore × Nat) :=
  match luaWriter st ns id uniqueL udeletedL deletedL dataL keysL scoredL with
  | .error (some col) =>
      .error (.uniqueViolation col (pyField ((uniqueL.lookup col).getD none)))
  | .error none => .error .luaRuntimeError
  | .ok r => .ok r

/-- The use_lua = True, delete = False branch of Model._apply_changes:
run the column loop, then submit everything to the script. -/
def applyLuaOnce (model pk : String) (schema : List (String × Col)) (st : LStore)
    (old new : String → Option String) (full : Bool) : Except RomErr (LStore × Nat) :=
  match columnLoop model pk old new full false true schema with
  | .error e => .error e
  | .ok co =>
    match redisWriterLua st model pk co.unique co.udeleted co.deleted co.data
        co.keys co.scores with
    | .error e => .error e
    | .ok r => .ok (r.1, co.changes)

/-- Store-level result of the Lua branch: a script abort leaves the store
untouched. -/
def applyLuaStore (model pk : String) (schema : List (String × Col)) (st : LStore)
    (old new : String → Option String) (full : Bool) : LStore × Option RomErr :=
  match applyLuaOnce model pk schema st old new full with
  | .error e => (st, some e)
  | .ok (st1, _) => (st1, none)

/-- The unique-column validation of _ModelMetaclass.__new__, lines
170-184: while collecting the columns of the class dict, a unique column
found when the unique set is already non-empty raises ColumnError unless
USE_LUA is set; otherwise the attribute joins the unique set. -/
def collectUnique (useLua : Bool) (acc : List String) :
    List (String × Col) → Except RomErr (List String)
  | [] => .ok acc
  | p :: rest =>
    if p.2.unique then
      if acc ≠ [] ∧ useLua = false then .error .columnError
      else collectUnique useLua (acc ++ [p.1]) rest
    else collectUnique useLua acc rest

/-- Python truthiness of an optional integer (the primary-key value). -/
def truthyInt : Option Int → Bool
  | none => false
  | some v => decide (v ≠ 0)

/-- PrimaryKey._init_ (columns.py lines 373-382): a missing value draws
the next value from the INCR counter, otherwise the passed value is used
as is (int conversion is the identity here). -/
def pkInitValue (counter : Nat) (value : Option Int) : Nat × Int :=
  match value with
  | none => (counter + 1, Int.ofNat (counter + 1))
  | some v => (counter, v)

/-- PrimaryKey.__set__ (columns.py lines 384-388): before the entity is
initialized the descriptor runs _init_; afterwards any assignment raises
InvalidOperation.  Returns the new counter and the stored key. -/
def primaryKeySet (objInit : Bool) (counter : Nat) (cval : Option Int) :
    Except RomErr (Nat × Int) :=
  if objInit then .error .invalidOperation
  else .ok (pkInitValue counter cval)

/-- The primary-key handling of Model.__init__, lines 236-239: a truthy
primary-key value passed while _new is set raises InvalidColumnValue
before the descriptor assignment; otherwise the descriptor's _init_ path
(obj._init is still False) stores the key. -/
def modelInitPkey (isNew : Bool) (counter : Nat) (cval : Option Int) :
    Except RomErr (Nat × Int) :=
  if isNew ∧ truthyInt cval = true then .error .invalidColumnValue
  else primaryKeySet false counter cval

/-- The unique-index lookup of Model.get_by, lines 508-519, at the level
of ids: hmget the unique-index hash at every candidate encoded value in
input order, then filter(None, ...) drops the misses. -/
def getByUniqueIds (uidx : String → Option String) (vals : List String) : List String :=
  (vals.map uidx).reduceOption

/-- The single-candidate path of the same lookup: None when nothing
matched, otherwise the single matched id (handed to cls.get). -/
def getByUniqueSingle (uidx : String → Option String) (v : String) : Option String :=
  match getByUniqueIds uidx [v] with
  | [] => none
  | i :: _ => some i

/-- A compiled filter criterion held by a Query (Query.filter lines
676-710): a single membership token 'attr:value', an inclusive numeric
range triple with optionally open endpoints, or an OR-list of tokens. -/
inductive QFilter where
  | tok (t : String)
  | range (attr : String) (lo hi : Option Int)
  | orTok (ts : List String)
deriving DecidableEq

/-- A keyword-argument value passed to Query.filter, covering the Python
types the method dispatches on: bool, a numeric value (ints; dates and
times arrive as numbers), a string, a tuple of two optional numeric
endpoints, a list of strings, or None/anything else. -/
inductive FilterArg where
  | abool (b : Bool)
  | anum (n : Int)
  | astr (s : String)
  | atup (l : List (Option Int))
  | alist (l : List String)
  | anone
deriving DecidableEq

/-- The query object: model name, compiled filters, order_by column and
(offset, count) limit, Query.__init__ lines 631-636. -/
structure Query where
  qmodel : String
  filters : List QFilter
  orderBy : Option String
  qlimit : Option (Nat × Nat)
deriving DecidableEq

/-- Compilation of one keyword argument of Query.filter: a bool becomes
the token str(bool(value)); a number becomes the degenerate range
(v, v); a string becomes a token; a tuple must have exactly two
endpoints; a non-empty list becomes an OR of tokens; anything else
raises QueryError. -/
def applyFilterArg (attr : String) : FilterArg → Except RomErr QFilter
  | .abool b => .ok (.tok (attr ++ ":" ++ (if b then "True" else "False")))
  | .anum n => .ok (.range attr (some n) (some n))
  | .astr s => .ok (.tok (attr ++ ":" ++ s))
  | .atup l =>
    match l with
    | [lo, hi] => .ok (.range attr lo hi)
    | _ => .error .queryError
  | .alist l =>
    if l.isEmpty then .error .queryError
    else .ok (.orTok (l.map (fun v => attr ++ ":" ++ v)))
  | .anone => .error .queryError

/-- The kwargs loop of Query.filter appending compiled criteria to the
copied filter list. -/
def compileFilters (acc : List QFilter) :
    List (String × FilterArg) → Except RomErr (List QFilter)
  | [] => .ok acc
  | p :: rest =>
    match applyFilterArg p.1 p.2 with
    | .error e => .error e
    | .ok f => compileFilters (acc ++ [f]) rest

/-- Query.filter: copy the current filters, append the compiled criteria,
and build a fresh Query with the same model, order_by and limit. -/
def Query.filter (q : Query) (kwargs : List (String × FilterArg)) :
    Except RomErr Query :=
  match compileFilters q.filters kwargs with
  | .error e => .error e
  | .ok fs => .ok ⟨q.qmodel, fs, q.orderBy, q.qlimit⟩

/-- Query.order_by: a fresh Query with the new ordering column. -/
def Query.orderByCol (q : Query) (c : String) : Query :=
  ⟨q.qmodel, q.filters, some c, q.qlimit⟩

/-- Query.limit: a fresh Query with the new (offset, count) pair. -/
def Query.limitTo (q : Query) (off cnt : Nat) : Query :=
  ⟨q.qmodel, q.filters, q.orderBy, some (off, cnt)⟩

/-- str.lstrip of a single character. -/
def stripMinus (s : String) : String :=
  String.mk (s.toList.dropWhile (fun ch => ch = '-'))

/-- Query.count, lines 731-744: take the filters, append the order_by
column stripped of its leading minus signs when one is set, raise
QueryError when the combined tuple is empty, otherwise delegate the
cardinality computation to GeneralIndex.count (passed in as gcount). -/
def Query.countM (gcount : List QFilter → Nat) (q : Query) : Except RomErr Nat :=
  let fs := q.filters ++ (match q.orderBy with
    | some o => if o = "" then [] else [QFilter.tok (stripMinus o)]
    | none => [])
  if fs.isEmpty then .error .queryError else .ok (gcount fs)

/-- A unique String column without an index (email_address-style). -/
def demoUniqueCol : Col := ⟨true, none⟩

/-- An indexed, non-unique column whose key generator always yields the
single token t. -/
def demoKeygenCol : Col := ⟨false, some (fun _ => PyVal.vlist ["t"])⟩

/-- A one-column schema with a single unique column named e. -/
def demoSchema : List (String × Col) := [("e", demoUniqueCol)]

/-- A two-unique-column schema. -/
def demoTwoUniqueSchema : List (String × Col) := [("a", demoUniqueCol), ("b", demoUniqueCol)]

/-- An empty store. -/
def demoEmptyStore : Store := ⟨fun _ _ => none, fun _ => none⟩

/-- A store in which entity 1 holds the value x in the unique index of
column e of model U. -/
def demoStoreX : Store :=
  ⟨fun k f => if k = "U:e:uidx" ∧ f = "x" then some "1" else none, fun _ => none⟩

/-- A store in which entity 1 holds the empty-string value in the unique
index of column e of model U. -/
def demoStoreEmptyVal : Store :=
  ⟨fun k f => if k = "U:e:uidx" ∧ f = "" then some "1" else none, fun _ => none⟩

/-- The Lua-side store in which entity 1 holds the value x in the unique
index of column e of model U. -/
def demoLStoreX : LStore :=
  ⟨fun k f => if k = "U:e:uidx" ∧ f = "x" then some "1" else none,
   fun _ => [], fun _ => [], fun _ _ => none⟩

/-- An empty old-field map. -/
def demoOld : String → Option String := fun _ => none

/-- A new-field map assigning x to column e. -/
def demoNewX : String → Option String := fun a => if a = "e" then some "x" else none

/-- A new-field map assigning the empty string to column e. -/
def demoNewEmpty : String → Option String := fun a => if a = "e" then some "" else none

lemma uniqueAttrs_cons (p : String × Col) (rest : List (String × Col)) :
    uniqueAttrs (p :: rest) =
      if p.2.unique = true then p.1 :: uniqueAttrs rest else uniqueAttrs rest := by
  by_cases h : p.2.unique <;> simp [uniqueAttrs, List.filter_cons, h]

lemma collectUnique_err_of_acc (cols : List (String × Col)) :
    ∀ acc : List String, acc ≠ [] → uniqueAttrs cols ≠ [] →
      collectUnique false acc cols = .error .columnError := by
  induction cols with
  | nil => intro acc _ h2; simp [uniqueAttrs] at h2
  | cons p rest ih =>
    intro acc h1 h2
    by_cases hu : p.2.unique
    · simp [collectUnique, hu, h1]
    · rw [uniqueAttrs_cons] at h2
      simp only [hu, if_false, Bool.false_eq_true] at h2
      simpa [collectUnique, hu] using ih acc h1 h2

lemma collectUnique_two (cols : List (String × Col))
    (h : 2 ≤ (uniqueAttrs cols).length) :
    collectUnique false [] cols = .error .columnError := by
  induction cols with
  | nil => simp [uniqueAttrs] at h
  | cons p rest ih =>
    rw [uniqueAttrs_cons] at h
    by_cases hu : p.2.unique
    · simp only [hu, if_true, List.length_cons] at h
      have hne : uniqueAttrs rest ≠ [] := by
        intro he
        rw [he] at h
        simp at h
      simpa [collectUnique, hu] using collectUnique_err_of_acc rest [p.1] (by simp) hne
    · simp only [hu, Bool.false_eq_true, if_false] at h
      simpa [collectUnique, hu] using ih h

/-- Claim C5: when the Lua write mode is not enabled, declaring a schema
with more than one unique column raises ColumnError already in
_ModelMetaclass.__new__, and Model._apply_changes independently raises
ColumnError for such a schema before doing anything else. -/
theorem C5_multi_unique_rejected :
    (∀ cols : List (String × Col), 2 ≤ (uniqueAttrs cols).length →
      collectUnique false [] cols = .error .columnError)
    ∧ (∀ (model pk : String) (schema : List (String × Col)) (store : Store)
        (old new : String → Option String) (full del : Bool),
        1 < (uniqueAttrs schema).length →
        applyOptimisticOnce model pk schema store old new full del = .error .columnError) := by
  constructor
  · exact collectUnique_two
  · intro model pk schema store old new full del h
    simp [applyOptimisticOnce, h]

/-- Witness for C5 on a concrete two-unique-column schema. -/
theorem C5_multi_unique_rejected_witness :
    collectUnique false [] demoTwoUniqueSchema = .error .columnError
    ∧ applyOptimisticOnce "U" "1" demoTwoUniqueSchema demoEmptyStore demoOld demoNewX
        false false = .error .columnError :=
  ⟨C5_multi_unique_rejected.1 demoTwoUniqueSchema (by decide),
   C5_multi_unique_rejected.2 "U" "1" demoTwoUniqueSchema demoEmptyStore demoOld demoNewX
     false false (by decide)⟩

/-- Claim C6: the unique-attribute lookup of Model.get_by returns, for a
batch of candidate values, exactly one id per matched value in the input
order of the candidates, silently omitting unmatched values (the list is
the filterMap of the unique index over the candidates), and for a single
candidate value it returns the at-most-one matching id. -/
theorem C6_unique_lookup_order :
    ∀ (uidx : String → Option String) (vals : List String) (v : String),
      getByUniqueIds uidx vals = vals.filterMap uidx
      ∧ getByUniqueSingle uidx v = uidx v := by
  intro uidx vals v
  constructor
  · induction vals with
    | nil => rfl
    | cons a rest ih =>
      cases h : uidx a <;>
        simp_all [getByUniqueIds, List.filterMap_cons, h, List.reduceOption]
  · cases h : uidx v <;> simp [getByUniqueSingle, getByUniqueIds, List.reduceOption, h]

/-- Claim C7: Query.count on a query carrying no filters and no order_by
criterion (None or the falsy empty string) raises QueryError at the call
instead of producing a number. -/
theorem C7_count_without_criteria_errors :
    ∀ (gcount : List QFilter → Nat) (q : Query),
      q.filters = [] → (q.orderBy = none ∨ q.orderBy = some "") →
      Query.countM gcount q = .error .queryError := by
  intro gcount q h1 h2
  rcases h2 with h2 | h2 <;> simp [Query.countM, h1, h2]

/-- Witness for C7 on a freshly built criteria-free query. -/
theorem C7_count_without_criteria_errors_witness :
    Query.countM (fun _ => 0) ⟨"U", [], none, none⟩ = .error .queryError :=
  C7_count_without_criteria_errors (fun _ => 0) ⟨"U", [], none, none⟩ rfl (Or.inl rfl)

lemma compileFilters_extend :
    ∀ (kwargs : List (String × FilterArg)) (acc fs : List QFilter),
      compileFilters acc kwargs = .ok fs → ∃ ext, fs = acc ++ ext := by
  intro kwargs
  induction kwargs with
  | nil =>
    intro acc fs h
    exact ⟨[], by simpa [compileFilters] using (Except.ok.inj h).symm⟩
  | cons p rest ih =>
    intro acc fs h
    rw [compileFilters] at h
    cases hp : applyFilterArg p.1 p.2 with
    | error e => rw [hp] at h; exact absurd h (by simp)
    | ok f =>
      rw [hp] at h
      obtain ⟨ext, he⟩ := ih (acc ++ [f]) fs h
      exact ⟨f :: ext, by simpa using he⟩

/-- Claim C10: Query.filter, Query.order_by and Query.limit each build a
fresh Query carrying the updated criteria — filter appends compiled
criteria to a copy of the filter list, order_by replaces only the
ordering column, limit replaces only the (offset, count) pair — and the
remaining fields are carried over from the base query unchanged, so a
Query value can seed several derived queries. -/
theorem C10_query_builder_fresh :
    ∀ (q q1 : Query) (kwargs : List (String × FilterArg)) (c : String) (off cnt : Nat),
      (Query.filter q kwargs = .ok q1 →
        q1.qmodel = q.qmodel ∧ q1.orderBy = q.orderBy ∧ q1.qlimit = q.qlimit
        ∧ ∃ ext, q1.filters = q.filters ++ ext)
      ∧ ((q.orderByCol c).qmodel = q.qmodel ∧ (q.orderByCol c).filters = q.filters
        ∧ (q.orderByCol c).qlimit = q.qlimit ∧ (q.orderByCol c).orderBy = some c)
      ∧ ((q.limitTo off cnt).qmodel = q.qmodel ∧ (q.limitTo off cnt).filters = q.filters
        ∧ (q.limitTo off cnt).orderBy = q.orderBy
        ∧ (q.limitTo off cnt).qlimit = some (off, cnt)) := by
  intro q q1 kwargs c off cnt
  refine ⟨?_, ⟨rfl, rfl, rfl, rfl⟩, ⟨rfl, rfl, rfl, rfl⟩⟩
  intro h
  rw [Query.filter] at h
  cases hc : compileFilters q.filters kwargs with
  | error e => rw [hc] at h; exact absurd h (by simp)
  | ok fs =>
    rw [hc] at h
    obtain ⟨ext, he⟩ := compileFilters_extend kwargs q.filters fs hc
    obtain rfl := (Except.ok.inj h).symm
    exact ⟨rfl, rfl, rfl, ext, by simpa using he⟩

/-- Witness for C10 at a concrete derived query. -/
theorem C10_query_builder_fresh_witness :
    Query.filter ⟨"U", [], some "e", none⟩ [("n", FilterArg.anum 3)]
      = .ok ⟨"U", [QFilter.range "n" (some 3) (some 3)], some "e", none⟩
    ∧ (⟨"U", [], some "e", none⟩ : Query).qmodel = "U"
    ∧ ((⟨"U", [], some "e", none⟩ : Query).filter [("n", FilterArg.anum 3)] = .ok
        ⟨"U", [QFilter.range "n" (some 3) (some 3)], some "e", none⟩ →
        (⟨"U", [QFilter.range "n" (some 3) (some 3)], some "e", none⟩ : Query).orderBy
          = (⟨"U", [], some "e", none⟩ : Query).orderBy) := by
  refine ⟨by decide, rfl, fun h => ?_⟩
  exact ((C10_query_builder_fresh ⟨"U", [], some "e", none⟩
    ⟨"U", [QFilter.range "n" (some 3) (some 3)], some "e", none⟩
    [("n", FilterArg.anum 3)] "e" 0 0).1 h).2.1

/-- Claim C9, counterexample to the claim as stated: passing the primary
key 0 while constructing a brand-new entity is NOT rejected — the
truthiness guard of Model.__init__ line 237 only fires for truthy values,
so the zero key is silently accepted and stored. -/
theorem C9_counterexample : modelInitPkey true 7 (some 0) = .ok (7, 0) := by decide

/-- Claim C9 (amended): assigning to the primary-key attribute of an
initialized entity always raises InvalidOperation; supplying a nonzero
(truthy) primary-key value when constructing a brand-new entity raises
InvalidColumnValue; and constructing without a key draws a fresh value
from the counter. -/
theorem C9_pk_immutable :
    (∀ (counter : Nat) (cval : Option Int),
      primaryKeySet true counter cval = .error .invalidOperation)
    ∧ (∀ (counter : Nat) (v : Int), v ≠ 0 →
      modelInitPkey true counter (some v) = .error .invalidColumnValue)
    ∧ (∀ counter : Nat,
      modelInitPkey true counter none = .ok (counter + 1, Int.ofNat (counter + 1))) := by
  refine ⟨fun counter cval => rfl, fun counter v hv => ?_, fun counter => rfl⟩
  simp [modelInitPkey, truthyInt, hv]

/-- Witness for C9 at a concrete nonzero constructor key. -/
theorem C9_pk_immutable_witness :
    (5 : Int) ≠ 0 ∧ modelInitPkey true 7 (some 5) = .error .invalidColumnValue :=
  ⟨by decide, C9_pk_immutable.2.1 7 5 (by decide)⟩

lemma applyKeygen_bad (a : String) (g : PyVal) (h1 : g.isTokenColl = false)
    (h2 : g.isScoreMap = false) (h3 : g.truthy = true) :
    applyKeygen a g = .error .columnError := by
  cases g with
  | vlist l => simp [PyVal.isTokenColl] at h1
  | vdict l => simp [PyVal.isScoreMap] at h2
  | vnone => simp [PyVal.truthy] at h3
  | vbool b => simp [applyKeygen, h3]
  | vint n => simp [applyKeygen, h3]
  | vstr s => simp [applyKeygen, h3]

lemma applyKeygen_falsy (a : String) (g : PyVal) (h : g.truthy = false) :
    applyKeygen a g = .ok ([], []) := by
  cases g with
  | vlist l =>
    have hl : l = [] := by simpa [PyVal.truthy] using h
    simp [applyKeygen, hl]
  | vdict l =>
    have hl : l = [] := by simpa [PyVal.truthy] using h
    simp [applyKeygen, hl]
  | vnone => rfl
  | vbool b => simp [applyKeygen, h]
  | vint n => simp [applyKeygen, h]
  | vstr s => simp [applyKeygen, h]

/-- Claim C8: a key-generator return that is neither a token collection
nor a score map but is non-empty (truthy) makes applyKeygen raise
ColumnError, and this surfaces from the apply call itself for a schema
whose column produces such a value; a generator returning nothing (any
falsy value) produces no index entries and no error. -/
theorem C8_keygen_return_contract :
    (∀ (a : String) (g : PyVal), g.isTokenColl = false → g.isScoreMap = false →
      g.truthy = true → applyKeygen a g = .error .columnError)
    ∧ (∀ (a : String) (g : PyVal), g.truthy = false → applyKeygen a g = .ok ([], []))
    ∧ (∀ (model pk : String) (store : Store) (old new : String → Option String)
        (full : Bool) (a : String) (g : String → PyVal) (v : String),
        new a = some v → (g v).isTokenColl = false → (g v).isScoreMap = false →
        (g v).truthy = true →
        applyOptimisticOnce model pk [(a, ⟨false, some g⟩)] store old new full false
          = .error .columnError) := by
  refine ⟨applyKeygen_bad, applyKeygen_falsy, ?_⟩
  intro model pk store old new full a g v hnv h1 h2 h3
  have hb := applyKeygen_bad a (g v) h1 h2 h3
  simp [applyOptimisticOnce, uniqueAttrs, uniqueCheckLoop, columnLoop, columnLoopAux,
    processAttr, keygenStep, hnv, hb]

/-- Witness for C8: the number 5 is rejected, 0 produces nothing, and a
generator returning 5 makes the apply itself fail. -/
theorem C8_keygen_return_contract_witness :
    applyKeygen "c" (PyVal.vint 5) = .error .columnError
    ∧ applyKeygen "c" (PyVal.vint 0) = .ok ([], [])
    ∧ applyOptimisticOnce "U" "1" [("c", ⟨false, some (fun _ => PyVal.vint 5)⟩)]
        demoEmptyStore demoOld (fun a => if a = "c" then some "x" else none) false false
        = .error .columnError :=
  ⟨C8_keygen_return_contract.1 "c" (PyVal.vint 5) rfl rfl (by decide),
   C8_keygen_return_contract.2.1 "c" (PyVal.vint 0) (by decide),
   C8_keygen_return_contract.2.2 "U" "1" demoEmptyStore demoOld
     (fun a => if a = "c" then some "x" else none) false "c"
     (fun _ => PyVal.vint 5) "x" (by decide) rfl rfl (by decide)⟩

lemma processAttr_ok_core {model pk attr : String} {c : Col} {roval nval : Option String}
    {full del useLua : Bool} {rOut : AttrOut}
    (h : processAttr model pk attr c roval nval full del useLua = .ok rOut) :
    ∃ kc ks ss, keygenStep attr c nval del = .ok (kc, ks, ss)
      ∧ rOut = processAttrCore model pk attr c roval nval full useLua kc ks ss := by
  rw [processAttr] at h
  cases hk : keygenStep attr c nval del with
  | error e => rw [hk] at h; exact absurd h (by simp)
  | ok t =>
    obtain ⟨kc, ks, ss⟩ := t
    rw [hk] at h
    exact ⟨kc, ks, ss, rfl, (Except.ok.inj h).symm⟩

/-- Claim C3, counterexample to the claim as stated: for an indexed
column whose new value equals its old value (full not set), the column
loop still invokes the key generator — keygenCalled is true and the
generated key is collected, even though no write is buffered. -/
theorem C3_counterexample :
    processAttr "U" "1" "e" demoKeygenCol (some "x") (some "x") false false false
      = .ok ⟨true, ["e:t"], [], 0, [], none, false, none, none⟩ := by decide

/-- Claim C3 (amended): when the new value equals the old value and full
is not set, the column loop buffers no write for the attribute (no
pipeline op, no data entry, no change counted, no unique bookkeeping),
but the attribute's key generator IS still invoked when present and the
value is not None, and its keys feed the wholesale index rewrite. -/
theorem C3_equal_value_skip :
    ∀ (model pk attr : String) (c : Col) (v : Option String) (useLua : Bool)
      (rOut : AttrOut),
      processAttr model pk attr c v v false false useLua = .ok rOut →
      rOut.changed = 0 ∧ rOut.ops = [] ∧ rOut.dataEntry = none
      ∧ rOut.deletedAttr = false ∧ rOut.udeleted = none ∧ rOut.uniqueArg = none
      ∧ (∀ (g : String → PyVal) (s : String), c.keygen = some g → v = some s →
          rOut.keygenCalled = true) := by
  intro model pk attr c v useLua rOut h
  obtain ⟨kc, ks, ss, hk, rfl⟩ := processAttr_ok_core h
  have hval : processAttrCore model pk attr c v v false useLua kc ks ss
      = ⟨kc, ks, ss, 0, [], none, false, none, none⟩ := by
    rw [processAttrCore.eq_def, if_pos ⟨rfl, rfl⟩]
  rw [hval]
  refine ⟨rfl, rfl, rfl, rfl, rfl, rfl, ?_⟩
  intro g s hg hs
  subst hs
  rw [keygenStep.eq_def, hg] at hk
  simp only [Bool.false_eq_true, if_false] at hk
  cases hak : applyKeygen attr (g s) with
  | error e => rw [hak] at hk; simp at hk
  | ok t =>
    obtain ⟨ks1, ss1⟩ := t
    rw [hak] at hk
    simp only [Except.ok.injEq, Prod.mk.injEq] at hk
    exact hk.1.symm

/-- Witness for C3 at a concrete unchanged indexed value. -/
theorem C3_equal_value_skip_witness :
    processAttr "U" "1" "e" demoKeygenCol (some "y") (some "y") false false false
      = .ok ⟨true, ["e:t"], [], 0, [], none, false, none, none⟩
    ∧ ((⟨true, ["e:t"], [], 0, [], none, false, none, none⟩ : AttrOut).changed = 0
      ∧ (⟨true, ["e:t"], [], 0, [], none, false, none, none⟩ : AttrOut).ops = []
      ∧ (⟨true, ["e:t"], [], 0, [], none, false, none, none⟩ : AttrOut).dataEntry = none
      ∧ (⟨true, ["e:t"], [], 0, [], none, false, none, none⟩ : AttrOut).deletedAttr = false
      ∧ (⟨true, ["e:t"], [], 0, [], none, false, none, none⟩ : AttrOut).udeleted = none
      ∧ (⟨true, ["e:t"], [], 0, [], none, false, none, none⟩ : AttrOut).uniqueArg = none
      ∧ (∀ (g : String → PyVal) (s : String), demoKeygenCol.keygen = some g →
          (some "y" : Option String) = some s →
          (⟨true, ["e:t"], [], 0, [], none, false, none, none⟩ : AttrOut).keygenCalled = true)) :=
  ⟨by decide,
   C3_equal_value_skip "U" "1" "e" demoKeygenCol (some "y") false
     ⟨true, ["e:t"], [], 0, [], none, false, none, none⟩ (by decide)⟩

/-- Claim C4, counterexample to the claim as stated: for a unique column
going from the value a to no value, the guard of the uniqueness check
does not fire, yet the unique index is NOT left untouched — the column
loop buffers a deletion of the old claim on the unique-index hash. -/
theorem C4_counterexample :
    checkCond (some "a") none false = false
    ∧ processAttr "U" "1" "e" demoUniqueCol (some "a") none false false false
      = .ok ⟨false, [], [], 1, [WOp.hdel "U:1" "e", WOp.hdel "U:e:uidx" "a"],
             none, false, none, none⟩ := by
  exact ⟨by decide, by decide⟩

/-- Claim C4 (amended): in the optimistic branch, apply performs the
uniqueness check exactly when the new value is non-empty and (the encoded
new value differs from the encoded old value or full is set); when the
check fires and a differing old value existed, the old claim is deleted
from the unique index alongside the write of the new claim; when the
guard does not fire the unique index is still mutated in exactly these
cases: a change to an absent new value deletes the old claim, an
empty-string new value is written to the unique index without any check,
and a full save of a never-set unique column writes the encoded None
field without any check; an unchanged value under a non-full save leaves
everything untouched. -/
theorem C4_unique_check_guard :
    (∀ (o n : Option String) (full : Bool),
      checkCond o n full = true ↔ ((∃ s, n = some s ∧ s ≠ "") ∧ (o ≠ n ∨ full = true)))
    ∧ (∀ (model pk attr : String) (c : Col) (r : String) (n : Option String)
        (full : Bool) (rOut : AttrOut),
        c.unique = true → checkCond (some r) n full = true → some r ≠ n →
        processAttr model pk attr c (some r) n full false false = .ok rOut →
        WOp.hdel (uidxKey model attr) r ∈ rOut.ops)
    ∧ (∀ (model pk attr : String) (c : Col) (r : String) (full : Bool) (rOut : AttrOut),
        c.unique = true →
        processAttr model pk attr c (some r) none full false false = .ok rOut →
        rOut.ops = [WOp.hdel (recordKey model pk) attr, WOp.hdel (uidxKey model attr) r])
    ∧ (∀ (model pk attr : String) (c : Col) (full : Bool) (rOut : AttrOut),
        c.unique = true →
        processAttr model pk attr c none (some "") full false false = .ok rOut →
        rOut.ops = [WOp.hset (uidxKey model attr) (some "") pk])
    ∧ (∀ (model pk attr : String) (c : Col) (v : Option String) (rOut : AttrOut),
        processAttr model pk attr c v v false false false = .ok rOut → rOut.ops = [])
    ∧ (∀ (model pk attr : String) (c : Col) (rOut : AttrOut),
        c.unique = true →
        processAttr model pk attr c none none true false false = .ok rOut →
        rOut.ops = [WOp.hset (uidxKey model attr) none pk]) := by
  refine ⟨?_, ?_, ?_, ?_, ?_, ?_⟩
  · intro o n full
    cases n with
    | none => simp [checkCond, truthyO]
    | some s =>
      simp only [checkCond, truthyO, Bool.and_eq_true, Bool.or_eq_true,
        decide_eq_true_eq, Option.some.injEq]
      constructor
      · rintro ⟨hs, ho⟩
        exact ⟨⟨s, rfl, hs⟩, ho⟩
      · rintro ⟨⟨s1, hs1, hne⟩, ho⟩
        subst hs1
        exact ⟨hne, ho⟩
  · intro model pk attr c r n full rOut hu hcc hne h
    obtain ⟨kc, ks, ss, _, rfl⟩ := processAttr_ok_core h
    cases n with
    | none => simp [checkCond, truthyO] at hcc
    | some s =>
      have hval : processAttrCore model pk attr c (some r) (some s) full false kc ks ss
          = ⟨kc, ks, ss, 1,
             [WOp.hdel (uidxKey model attr) r, WOp.hset (uidxKey model attr) (some s) pk],
             some (attr, s), false, none, none⟩ := by
        rw [processAttrCore.eq_def, if_neg (fun hcon => hne hcon.1.symm)]
        simp [hu]
      rw [hval]
      simp
  · intro model pk attr c r full rOut hu h
    obtain ⟨kc, ks, ss, _, rfl⟩ := processAttr_ok_core h
    have hval : processAttrCore model pk attr c (some r) none full false kc ks ss
        = ⟨kc, ks, ss, 1,
           [WOp.hdel (recordKey model pk) attr, WOp.hdel (uidxKey model attr) r],
           none, false, none, none⟩ := by
      rw [processAttrCore.eq_def, if_neg (fun hcon => Option.noConfusion hcon.1)]
      simp [hu]
    rw [hval]
  · intro model pk attr c full rOut hu h
    obtain ⟨kc, ks, ss, _, rfl⟩ := processAttr_ok_core h
    have hval : processAttrCore model pk attr c none (some "") full false kc ks ss
        = ⟨kc, ks, ss, 1, [WOp.hset (uidxKey model attr) (some "") pk],
           some (attr, ""), false, none, none⟩ := by
      rw [processAttrCore.eq_def, if_neg (fun hcon => Option.noConfusion hcon.1)]
      simp [hu]
    rw [hval]
  · intro model pk attr c v rOut h
    obtain ⟨kc, ks, ss, _, rfl⟩ := processAttr_ok_core h
    have hval : processAttrCore model pk attr c v v false false kc ks ss
        = ⟨kc, ks, ss, 0, [], none, false, none, none⟩ := by
      rw [processAttrCore.eq_def, if_pos ⟨rfl, rfl⟩]
    rw [hval]
  · intro model pk attr c rOut hu h
    obtain ⟨kc, ks, ss, _, rfl⟩ := processAttr_ok_core h
    have hval : processAttrCore model pk attr c none none true false kc ks ss
        = ⟨kc, ks, ss, 1, [WOp.hset (uidxKey model attr) none pk],
           none, false, none, none⟩ := by
      rw [processAttrCore.eq_def, if_neg (fun hcon => Bool.noConfusion hcon.2)]
      simp [hu]
    rw [hval]

/-- Witness for C4: the retraction conjunct at a changed unique value and
the unchecked empty-string write conjunct at concrete inputs. -/
theorem C4_unique_check_guard_witness :
    WOp.hdel (uidxKey "U" "e") "a" ∈
      (⟨false, [], [], 1,
        [WOp.hdel (uidxKey "U" "e") "a", WOp.hset (uidxKey "U" "e") (some "b") "1"],
        some ("e", "b"), false, none, none⟩ : AttrOut).ops
    ∧ (⟨false, [], [], 1, [WOp.hset (uidxKey "U" "e") (some "") "1"],
        some ("e", ""), false, none, none⟩ : AttrOut).ops
      = [WOp.hset (uidxKey "U" "e") (some "") "1"] :=
  ⟨C4_unique_check_guard.2.1 "U" "1" "e" demoUniqueCol "a" (some "b") false
     ⟨false, [], [], 1,
      [WOp.hdel (uidxKey "U" "e") "a", WOp.hset (uidxKey "U" "e") (some "b") "1"],
      some ("e", "b"), false, none, none⟩ rfl (by decide) (by decide) (by decide),
   C4_unique_check_guard.2.2.2.1 "U" "1" "e" demoUniqueCol false
     ⟨false, [], [], 1, [WOp.hset (uidxKey "U" "e") (some "") "1"],
      some ("e", ""), false, none, none⟩ rfl (by decide)⟩

lemma demoOnce :
    applyOptimisticOnce "U" "2" demoSchema demoEmptyStore demoOld demoNewX false false
      = .ok (["U:e:uidx"],
             [WOp.hset "U:e:uidx" (some "x") "2", WOp.hmset "U:2" [("e", "x")],
              WOp.gindexWrite "2" [] []], 1) := by decide

lemma applyLoop_stuck (fuel : Nat) :
    ∀ s : Nat → Bool, (∀ i, s i = true) →
      applyLoop "U" "2" demoSchema demoEmptyStore demoOld demoNewX false false s fuel
        = none := by
  induction fuel with
  | zero => intro s _; rfl
  | succ n ih =>
    intro s hs
    simp only [applyLoop, demoOnce]
    rw [if_pos ⟨List.cons_ne_nil _ _, hs 0⟩]
    exact ih (fun i => s (i + 1)) (fun i => hs (i + 1))

/-- Claim C2, counterexample to the claim as stated: there is NO retry
ceiling — for every candidate bound R, the schedule that invalidates the
watched key on every attempt keeps the 'while 1' loop of
Model._apply_changes running past R attempts without committing and
without reporting any error (the source has no concurrent-modification
error at all). -/
theorem C2_counterexample :
    ¬ ∃ R : Nat, ∀ (model pk : String) (schema : List (String × Col)) (store : Store)
        (old new : String → Option String) (full del : Bool) (s : Nat → Bool),
        (applyLoop model pk schema store old new full del s R).isSome = true := by
  rintro ⟨R, h⟩
  have h1 := h "U" "2" demoSchema demoEmptyStore demoOld demoNewX false false
    (fun _ => true)
  rw [applyLoop_stuck R (fun _ => true) (fun _ => rfl)] at h1
  simp at h1

/-- Claim C2 (amended): the optimistic watch/retry loop has no retry
ceiling and no concurrent-modification error; it retries on every watch
invalidation indefinitely and terminates at the first attempt whose
watch is not invalidated (or when an attempt raises), so it terminates
for every invalidation sequence with a clean attempt, and loops forever
under perpetual invalidation. -/
theorem C2_retry_loop_unbounded :
    ∀ (model pk : String) (schema : List (String × Col)) (store : Store)
      (old new : String → Option String) (full del : Bool) (s : Nat → Bool)
      (k fuel : Nat), k < fuel → s k = false →
      (applyLoop model pk schema store old new full del s fuel).isSome = true := by
  intro model pk schema store old new full del s k fuel
  induction fuel generalizing s k with
  | zero => intro hk _; exact absurd hk (Nat.not_lt_zero k)
  | succ n ih =>
    intro hk hs
    rw [applyLoop]
    split
    · simp
    · next ws ops m _ =>
      by_cases hb : ws ≠ [] ∧ s 0 = true
      · rw [if_pos hb]
        cases k with
        | zero => rw [hs] at hb; exact absurd hb.2 (by simp)
        | succ k1 =>
          exact ih (fun i => s (i + 1)) k1 (Nat.lt_of_succ_lt_succ hk) hs
      · rw [if_neg hb]
        simp

/-- Witness for C2 at a schedule whose first attempt is clean. -/
theorem C2_retry_loop_unbounded_witness :
    (0 : Nat) < 1
    ∧ (applyLoop "U" "2" demoSchema demoEmptyStore demoOld demoNewX false false
        (fun _ => false) 1).isSome = true :=
  ⟨by decide,
   C2_retry_loop_unbounded "U" "2" demoSchema demoEmptyStore demoOld demoNewX
     false false (fun _ => false) 0 1 (by decide) rfl⟩

lemma findConflict_found (st : LStore) (ns id : String) :
    ∀ l : List (String × String), (∃ p ∈ l, conflictAt st ns id p = true) →
      ∃ p ∈ l, findConflict st ns id l = some p.1 ∧ conflictAt st ns id p = true := by
  intro l
  induction l with
  | nil => rintro ⟨p, hp, _⟩; exact absurd hp (List.not_mem_nil p)
  | cons q rest ih =>
    rintro ⟨p, hp, hc⟩
    by_cases hq : conflictAt st ns id q = true
    · exact ⟨q, List.mem_cons_self q rest, by simp [findConflict, hq], hq⟩
    · rcases List.mem_cons.mp hp with rfl | hrest
      · exact absurd hc hq
      · obtain ⟨p1, hp1, hf, hc1⟩ := ih ⟨p, hrest, hc⟩
        exact ⟨p1, List.mem_cons_of_mem q hp1, by simp [findConflict, hq, hf], hc1⟩

lemma lookup_of_nodup :
    ∀ (l : List (String × Option String)) (q : String × Option String),
      (l.map Prod.fst).Nodup → q ∈ l → l.lookup q.1 = some q.2 := by
  intro l
  induction l with
  | nil => intro q _ hq; exact absurd hq (List.not_mem_nil q)
  | cons x rest ih =>
    intro q hnd hq
    rw [List.map_cons] at hnd
    obtain ⟨hx, hrest⟩ := List.nodup_cons.mp hnd
    obtain ⟨xk, xv⟩ := x
    rcases List.mem_cons.mp hq with rfl | hmem
    · simp [List.lookup_cons]
    · have hne : q.1 ≠ xk := by
        intro he
        have hmm := List.mem_map_of_mem Prod.fst hmem
        rw [he] at hmm
        exact hx hmm
      rw [List.lookup_cons]
      have hbeq : (q.1 == xk) = false := beq_false_of_ne hne
      rw [hbeq]
      exact ih q hrest hmem

lemma conflictAt_true {st : LStore} {ns id : String} {p : String × String}
    (h : conflictAt st ns id p = true) :
    ∃ known, st.hashes (uidxKey ns p.1) p.2 = some known ∧ known ≠ id := by
  rw [conflictAt] at h
  cases hh : st.hashes (uidxKey ns p.1) p.2 with
  | none => rw [hh] at h; simp at h
  | some known =>
    rw [hh] at h
    exact ⟨known, rfl, of_decide_eq_true h⟩

/-- Claim C1 (amended): an apply of an entity update in which another
living entity already holds the new encoded value of a unique attribute
fails with a UniqueKeyViolation naming an offending attribute and value,
and leaves the store untouched — in the optimistic branch provided the
new value is non-empty (the violation is raised during the unique-check
loop, before any buffered write is executed); in the Lua branch the check
pass returns the conflicting column before any write of the script runs.
The non-empty proviso is forced: an empty-string new value skips the
optimistic check entirely and overwrites the other entity's claim. -/
theorem C1_unique_conflict_aborts :
    (∀ (model pk : String) (schema : List (String × Col)) (store : Store)
        (old new : String → Option String) (full : Bool) (a v other : String),
      uniqueAttrs schema = [a] →
      new a = some v → v ≠ "" →
      (∀ w, old a = some w → store.hashes (uidxKey model a) w = some pk) →
      store.hashes (uidxKey model a) v = some other → other ≠ pk →
      applyOptimisticStore model pk schema store old new full false
        = (store, some (.uniqueViolation a v)))
    ∧ (∀ (model pk : String) (schema : List (String × Col)) (st : LStore)
        (old new : String → Option String) (full : Bool) (co : ColOut)
        (a v other : String),
      columnLoop model pk old new full false true schema = .ok co →
      (∀ p ∈ co.unique, p.2 ≠ none) →
      (co.unique.map Prod.fst).Nodup →
      (a, some v) ∈ co.unique →
      st.hashes (uidxKey model a) v = some other → other ≠ pk →
      ∃ a1 v1 k1, applyLuaStore model pk schema st old new full
          = (st, some (.uniqueViolation a1 v1))
        ∧ st.hashes (uidxKey model a1) v1 = some k1 ∧ k1 ≠ pk) := by
  constructor
  · intro model pk schema store old new full a v other hu hv hne hold hother hop
    have hone : old a ≠ some v := by
      intro he
      have h1 := hold v he
      rw [hother] at h1
      exact hop (Option.some.inj h1)
    have hcc : checkCond (old a) (new a) full = true := by
      rw [hv, checkCond]
      simp only [truthyO, Bool.and_eq_true, Bool.or_eq_true, decide_eq_true_eq]
      exact ⟨hne, Or.inl hone⟩
    have hloop : uniqueCheckLoop model pk store old new full [a]
        = ([uidxKey model a], some (a, v)) := by
      rw [uniqueCheckLoop, if_pos hcc, hv]
      simp only [hother]
      rw [if_neg (fun he => hop he)]
    have honce : applyOptimisticOnce model pk schema store old new full false
        = .error (.uniqueViolation a v) := by
      rw [applyOptimisticOnce, hu]
      simp only [List.length_cons, List.length_nil, Nat.lt_irrefl, if_false]
      rw [hloop]
    rw [applyOptimisticStore, honce]
  · intro model pk schema st old new full co a v other hco hnn hnodup hmem hother hop
    have hconfa : conflictAt st model pk (a, v) = true := by
      rw [conflictAt, hother]
      exact decide_eq_true hop
    have hmemL : (a, v) ∈ co.unique.map (fun p => (p.1, p.2.getD "")) := by
      have := List.mem_map_of_mem (fun p : String × Option String => (p.1, p.2.getD ""))
        hmem
      simpa using this
    obtain ⟨p1, hp1, hf, hc1⟩ :=
      findConflict_found st model pk (co.unique.map (fun p => (p.1, p.2.getD "")))
        ⟨(a, v), hmemL, hconfa⟩
    obtain ⟨q, hq, hqe⟩ := List.mem_map.mp hp1
    have hq2 : q.2 ≠ none := hnn q hq
    obtain ⟨w, hw⟩ := Option.ne_none_iff_exists'.mp hq2
    have hk1 : q.1 = p1.1 := by rw [← hqe]
    have hval : p1.2 = w := by rw [← hqe, hw]; rfl
    have hany : (co.unique.any fun p => p.2.isNone) = false := by
      rw [List.any_eq_false]
      intro p hp
      have := hnn p hp
      cases hpp : p.2 with
      | none => exact absurd hpp this
      | some _ => simp
    have hlook : co.unique.lookup p1.1 = some q.2 := by
      rw [← hk1]
      exact lookup_of_nodup co.unique q hnodup hq
    have hwriter : luaWriter st model pk co.unique co.udeleted co.deleted co.data
        co.keys co.scores = .error (some p1.1) := by
      rw [luaWriter, hany]
      simp only [Bool.false_eq_true, if_false]
      rw [hf]
    have hred : redisWriterLua st model pk co.unique co.udeleted co.deleted co.data
        co.keys co.scores = .error (.uniqueViolation p1.1 w) := by
      rw [redisWriterLua, hwriter]
      show Except.error
          (RomErr.uniqueViolation p1.1 (pyField ((co.unique.lookup p1.1).getD none))) = _
      rw [hlook, hw]
      rfl
    have happly : applyLuaOnce model pk schema st old new full
        = .error (.uniqueViolation p1.1 w) := by
      rw [applyLuaOnce, hco]
      show (match redisWriterLua st model pk co.unique co.udeleted co.deleted co.data
              co.keys co.scores with
            | .error e => Except.error e
            | .ok r => Except.ok (r.1, co.changes)) = _
      rw [hred]
    obtain ⟨k1, hk1v, hkne⟩ := conflictAt_true hc1
    refine ⟨p1.1, w, k1, ?_, ?_, hkne⟩
    · rw [applyLuaStore, happly]
    · rw [← hval]
      exact hk1v

/-- Claim C1, counterexample to the claim as stated: entity 1 holds the
empty-string value of the unique column e, and entity 2 applies an update
setting e to the empty string — the optimistic apply does NOT fail (no
error is reported) and it mutates the store, overwriting entity 1's claim
in the unique index with entity 2's id. -/
theorem C1_counterexample :
    (applyOptimisticStore "U" "2" demoSchema demoStoreEmptyVal demoOld demoNewEmpty
        false false).2 = none
    ∧ ((applyOptimisticStore "U" "2" demoSchema demoStoreEmptyVal demoOld demoNewEmpty
        false false).1).hashes (uidxKey "U" "e") "" = some "2" := by
  exact ⟨by decide, by decide⟩

/-- Witness for C1 in both branches at a concrete conflicting value. -/
theorem C1_unique_conflict_aborts_witness :
    applyOptimisticStore "U" "2" demoSchema demoStoreX demoOld demoNewX false false
      = (demoStoreX, some (.uniqueViolation "e" "x"))
    ∧ ∃ a1 v1 k1, applyLuaStore "U" "2" demoSchema demoLStoreX demoOld demoNewX false
        = (demoLStoreX, some (.uniqueViolation a1 v1))
      ∧ demoLStoreX.hashes (uidxKey "U" a1) v1 = some k1 ∧ k1 ≠ "2" :=
  ⟨C1_unique_conflict_aborts.1 "U" "2" demoSchema demoStoreX demoOld demoNewX false
     "e" "x" "1" (by decide) (by decide) (by decide)
     (fun w hw => absurd hw (by simp [demoOld])) (by decide) (by decide),
   C1_unique_conflict_aborts.2 "U" "2" demoSchema demoLStoreX demoOld demoNewX false
     ⟨1, [], [], [], [("e", "x")], [], [], [("e", some "x")]⟩ "e" "x" "1"
     (by decide) (by decide) (by decide) (by decide) (by decide) (by decide)⟩

end RomModel
